import Mathlib

/-!
Verification development for the portfolio backtesting core
(`src/backtesting/portfolio_backtest.py`).

Conventions of the shallow embedding:
* Python floats are modelled as `ℚ` (exact arithmetic).
* `datetime` dates are modelled as `ℤ` (days since an arbitrary epoch);
  `timedelta(days=n)` becomes integer addition.
* pandas DataFrames are modelled as lists of row structures, ordered by date
  ascending (the loaders sort by date / `ORDER BY rcept_dt`).
* Python dicts are modelled as association lists in insertion order.
* Python's stable `list.sort(key=…, reverse=…)` is modelled by a stable
  insertion sort `pySort`; any two stable sorts with the same boolean
  comparison agree, so this is a faithful model of Timsort's result.
-/

namespace Backtest

/-- One step of stable insertion: place `x` before the first element `y`
with `le x y`; ties keep the earlier (already-inserted) element first,
matching Python's stable sort. -/
def insertStable (le : α → α → Bool) (x : α) : List α → List α
  | [] => [x]
  | y :: ys => if le x y then x :: y :: ys else y :: insertStable le x ys

/-- Stable sort modelling Python `list.sort` with boolean comparison `le`. -/
def pySort (le : α → α → Bool) : List α → List α
  | [] => []
  | x :: xs => insertStable le x (pySort le xs)

/-- Comparison used by `items.sort(key=lambda x: x[1], reverse=not sort_ascending)`:
ascending compares scores with `≤`, descending with the flipped `≤`
(Python's `reverse=True` reverses comparisons but keeps ties stable). -/
def scoreLe (sortAscending : Bool) (a b : ℚ) : Bool :=
  if sortAscending then decide (a ≤ b) else decide (b ≤ a)

/-- Comparison on `(symbol, score)` items, by score. -/
def pairLe (sortAscending : Bool) (a b : String × ℚ) : Bool :=
  scoreLe sortAscending a.2 b.2

/-- Python `round()` (no digits) on a nonnegative value: round half to even,
modelled exactly on `ℚ`. -/
def pyRound (q : ℚ) : ℤ :=
  if q - q.floor < 1/2 then q.floor
  else if 1/2 < q - q.floor then q.floor + 1
  else if 2 ∣ q.floor then q.floor else q.floor + 1

/-- Batteries' computable `Rat.floor` agrees with the `FloorRing` floor. -/
theorem ratFloor_eq_intFloor (q : ℚ) : q.floor = ⌊q⌋ :=
  (Rat.floor_def' q).trans Rat.floor_def.symm

/-- The percentile cut size `k = max(1, int(round(len(items) * (p / 100.0))))`
from `_apply_metric_filter_and_sort`. -/
def percentileCut (n : ℕ) (p : ℚ) : ℕ :=
  max 1 (pyRound ((n : ℚ) * (p / 100))).toNat

/-- The `filter_type == "value"` cut of `_apply_metric_filter_and_sort`
(applied before the sort). -/
def valueFilterStep (items : List (String × ℚ)) (filterType : Option String)
    (filterValue : Option ℚ) (sortAscending : Bool) : List (String × ℚ) :=
  match filterType, filterValue with
  | some ft, some fv =>
    if ft = "value" then
      if sortAscending then items.filter (fun p => decide (p.2 ≤ fv))
      else items.filter (fun p => decide (fv ≤ p.2))
    else items
  | _, _ => items

/-- The `filter_type in ("top", "bottom")` percentile cut of
`_apply_metric_filter_and_sort` (applied after the sort). -/
def percentStep (items : List (String × ℚ)) (filterType : Option String)
    (filterPercent : Option ℚ) : List (String × ℚ) :=
  if filterType = some "top" ∨ filterType = some "bottom" then
    match filterPercent with
    | some fp =>
      let p := max 0 (min 100 fp)
      if p = 0 then []
      else
        let k := percentileCut items.length p
        if filterType = some "top" then items.take k
        else items.drop (items.length - k)
    | none => items
  else items

/-- Embedding of `_apply_metric_filter_and_sort` (portfolio_backtest.py 69–105).
Input is the `symbol_to_score` dict as an association list in insertion
order; output is the ordered symbol list: value cut, stable sort by score,
percentile cut, projection to symbols. -/
def applyMetricFilterAndSort (symbolToScore : List (String × ℚ))
    (filterType : Option String) (filterPercent : Option ℚ)
    (filterValue : Option ℚ) (sortAscending : Bool) : List String :=
  (percentStep
    (pySort (pairLe sortAscending)
      (valueFilterStep symbolToScore filterType filterValue sortAscending))
    filterType filterPercent).map Prod.fst

/-- `symbol_to_score.get(s, 0.0)` on the score dict. -/
def dictGet (m : List (String × ℚ)) (s : String) : ℚ :=
  match m.find? (fun p => p.1 == s) with
  | some p => p.2
  | none => 0

/-- Comparison used by the re-sort in `run_backtest`
(`selected_symbols.sort(key=lambda s: symbol_to_score.get(s, 0.0), …)`). -/
def symLe (m : List (String × ℚ)) (sortAscending : Bool) (a b : String) : Bool :=
  scoreLe sortAscending (dictGet m a) (dictGet m b)

/-- Embedding of the screening portion of `run_backtest`
(portfolio_backtest.py 1837–1850): apply the filter, fall back to the full
scored set when the screened list is empty, then re-sort by the same score. -/
def screeningPipeline (m : List (String × ℚ)) (filterType : Option String)
    (filterPercent : Option ℚ) (filterValue : Option ℚ)
    (sortAscending : Bool) : List String :=
  let screened := applyMetricFilterAndSort m filterType filterPercent filterValue sortAscending
  let selected := if screened = [] then m.map Prod.fst else screened
  pySort (symLe m sortAscending) selected

theorem insertStable_perm (le : α → α → Bool) (x : α) (l : List α) :
    List.Perm (insertStable le x l) (x :: l) := by
  induction l with
  | nil => exact List.Perm.refl _
  | cons y ys ih =>
    unfold insertStable
    split
    · exact List.Perm.refl _
    · exact (ih.cons y).trans (List.Perm.swap x y ys)

theorem pySort_perm (le : α → α → Bool) (l : List α) : List.Perm (pySort le l) l := by
  induction l with
  | nil => exact List.Perm.refl _
  | cons x xs ih => exact (insertStable_perm le x (pySort le xs)).trans (ih.cons x)

theorem mem_pySort (le : α → α → Bool) (l : List α) (a : α) :
    a ∈ pySort le l ↔ a ∈ l :=
  (pySort_perm le l).mem_iff

theorem pySort_length (le : α → α → Bool) (l : List α) :
    (pySort le l).length = l.length :=
  (pySort_perm le l).length_eq

theorem pairwise_insertStable (le : α → α → Bool)
    (htot : ∀ a b, le a b = true ∨ le b a = true)
    (htrans : ∀ a b c, le a b = true → le b c = true → le a c = true)
    (x : α) (l : List α) (hl : l.Pairwise (fun a b => le a b = true)) :
    (insertStable le x l).Pairwise (fun a b => le a b = true) := by
  induction l with
  | nil => simp [insertStable]
  | cons y ys ih =>
    rcases hl with _ | ⟨hy, hys⟩
    unfold insertStable
    split
    case isTrue h =>
      refine List.Pairwise.cons ?_ (List.Pairwise.cons hy hys)
      intro b hb
      rcases List.mem_cons.mp hb with hb | hb
      · exact hb ▸ h
      · exact htrans x y b h (hy b hb)
    case isFalse h =>
      refine List.Pairwise.cons ?_ (ih hys)
      intro b hb
      have hb2 : b ∈ x :: ys := (insertStable_perm le x ys).mem_iff.mp hb
      rcases List.mem_cons.mp hb2 with hb3 | hb3
      · subst hb3
        rcases htot b y with h1 | h1
        · exact absurd h1 h
        · exact h1
      · exact hy b hb3

theorem pairwise_pySort (le : α → α → Bool)
    (htot : ∀ a b, le a b = true ∨ le b a = true)
    (htrans : ∀ a b c, le a b = true → le b c = true → le a c = true)
    (l : List α) : (pySort le l).Pairwise (fun a b => le a b = true) := by
  induction l with
  | nil => exact List.Pairwise.nil
  | cons x xs ih => exact pairwise_insertStable le htot htrans x (pySort le xs) ih

theorem insertStable_of_forall_le (le : α → α → Bool) (x : α) (l : List α)
    (h : ∀ b ∈ l, le x b = true) : insertStable le x l = x :: l := by
  cases l with
  | nil => rfl
  | cons y ys =>
    unfold insertStable
    rw [if_pos (h y (List.mem_cons_self y ys))]

theorem pySort_of_pairwise (le : α → α → Bool) (l : List α)
    (hl : l.Pairwise (fun a b => le a b = true)) : pySort le l = l := by
  induction l with
  | nil => rfl
  | cons x xs ih =>
    rcases hl with _ | ⟨hx, hxs⟩
    show insertStable le x (pySort le xs) = x :: xs
    rw [ih hxs, insertStable_of_forall_le le x xs hx]

theorem insertStable_map (f : α → β) (le' : α → α → Bool) (le : β → β → Bool)
    (x : α) (l : List α) (h : ∀ b ∈ l, le (f x) (f b) = le' x b) :
    insertStable le (f x) (l.map f) = (insertStable le' x l).map f := by
  induction l with
  | nil => rfl
  | cons y ys ih =>
    simp only [List.map_cons]
    unfold insertStable
    rw [h y (List.mem_cons_self y ys)]
    split
    · simp [List.map_cons]
    · simp only [List.map_cons, List.cons.injEq, true_and]
      exact ih (fun b hb => h b (List.mem_cons_of_mem y hb))

theorem pySort_map (f : α → β) (le' : α → α → Bool) (le : β → β → Bool)
    (l : List α) (h : ∀ a ∈ l, ∀ b ∈ l, le (f a) (f b) = le' a b) :
    pySort le (l.map f) = (pySort le' l).map f := by
  induction l with
  | nil => rfl
  | cons x xs ih =>
    simp only [List.map_cons]
    show insertStable le (f x) (pySort le (xs.map f)) = _
    rw [ih (fun a ha b hb =>
      h a (List.mem_cons_of_mem x ha) b (List.mem_cons_of_mem x hb))]
    exact insertStable_map f le' le x (pySort le' xs) (fun b hb =>
      h x (List.mem_cons_self x xs) b
        (List.mem_cons_of_mem x ((mem_pySort le' xs b).mp hb)))

theorem scoreLe_total (asc : Bool) (a b : ℚ) :
    scoreLe asc a b = true ∨ scoreLe asc b a = true := by
  unfold scoreLe
  cases asc <;> simp <;> exact le_total _ _

theorem scoreLe_trans (asc : Bool) (a b c : ℚ)
    (h1 : scoreLe asc a b = true) (h2 : scoreLe asc b c = true) :
    scoreLe asc a c = true := by
  unfold scoreLe at *
  cases asc
  · simp_all
    exact le_trans h2 h1
  · simp_all
    exact le_trans h1 h2

theorem dictGet_of_mem (m : List (String × ℚ))
    (hnd : (m.map Prod.fst).Nodup) (p : String × ℚ) (hp : p ∈ m) :
    dictGet m p.1 = p.2 := by
  induction m with
  | nil => cases hp
  | cons q rest ih =>
    simp only [List.map_cons] at hnd
    rcases List.nodup_cons.mp hnd with ⟨hq, hrest⟩
    rcases List.mem_cons.mp hp with hp | hp
    · subst hp
      unfold dictGet
      simp [List.find?]
    · have hne : (q.1 == p.1) = false := by
        refine beq_eq_false_iff_ne.mpr ?_
        intro hEq
        exact hq (hEq ▸ List.mem_map_of_mem Prod.fst hp)
      unfold dictGet at *
      simp only [List.find?, hne]
      exact ih hrest hp

theorem pyRound_le_ceil (q : ℚ) : pyRound q ≤ ⌈q⌉ := by
  have hfc : ⌊q⌋ ≤ ⌈q⌉ := Int.floor_le_ceil q
  have hkey : ¬(q - ⌊q⌋ < 1/2) → ⌊q⌋ + 1 ≤ ⌈q⌉ := by
    intro h
    have h0 : (⌊q⌋ : ℚ) < q := by
      have : (1:ℚ)/2 ≤ q - ⌊q⌋ := not_lt.mp h
      linarith
    have h1 : (⌊q⌋ : ℚ) < (⌈q⌉ : ℚ) := lt_of_lt_of_le h0 (Int.le_ceil q)
    exact Int.add_one_le_iff.mpr (by exact_mod_cast h1)
  unfold pyRound
  split
  · exact hfc
  · split
    · exact hkey (by assumption)
    · split
      · exact Int.le_of_lt (Int.lt_of_add_one_le (hkey (by assumption)))
      · exact hkey (by assumption)

theorem le_pyRound_floor (q : ℚ) : ⌊q⌋ ≤ pyRound q := by
  unfold pyRound
  simp only [ratFloor_eq_intFloor]
  split
  · exact le_refl _
  · split
    · omega
    · split
      · exact le_refl _
      · omega

theorem pyRound_intCast (n : ℤ) : pyRound (n : ℚ) = n := by
  unfold pyRound
  simp only [ratFloor_eq_intFloor]
  rw [Int.floor_intCast]
  norm_num

theorem percentileCut_le (n : ℕ) (p : ℚ) (hn : 1 ≤ n) (hp : p ≤ 100) :
    percentileCut n p ≤ n := by
  unfold percentileCut
  have h1 : (n : ℚ) * (p / 100) ≤ (n : ℚ) := by
    have hn0 : (0:ℚ) ≤ (n:ℚ) := by positivity
    nlinarith
  have h2 : pyRound ((n : ℚ) * (p / 100)) ≤ (n : ℤ) :=
    le_trans (pyRound_le_ceil _) (Int.ceil_le.mpr (by exact_mod_cast h1))
  have h3 : (pyRound ((n : ℚ) * (p / 100))).toNat ≤ n := by
    omega
  exact max_le hn h3

theorem applyMetric_percent_pos (m : List (String × ℚ)) (ft : String) (fp : ℚ)
    (asc : Bool) (h0 : 0 < fp) (h100 : fp ≤ 100) :
    applyMetricFilterAndSort m (some ft) (some fp) none asc =
      (if some ft = some "top" ∨ some ft = some "bottom" then
        (if some ft = some "top" then
          (pySort (pairLe asc) m).take (percentileCut m.length fp)
         else
          (pySort (pairLe asc) m).drop (m.length - percentileCut m.length fp))
       else pySort (pairLe asc) m).map Prod.fst := by
  unfold applyMetricFilterAndSort percentStep valueFilterStep
  have hclamp : max 0 (min 100 fp) = fp := by
    rw [min_eq_right h100, max_eq_right (le_of_lt h0)]
  simp only [hclamp, pySort_length]
  rw [if_neg (ne_of_gt h0)]

theorem pairLe_total (asc : Bool) (a b : String × ℚ) :
    pairLe asc a b = true ∨ pairLe asc b a = true :=
  scoreLe_total asc a.2 b.2

theorem pairLe_trans (asc : Bool) (a b c : String × ℚ)
    (h1 : pairLe asc a b = true) (h2 : pairLe asc b c = true) :
    pairLe asc a c = true :=
  scoreLe_trans asc a.2 b.2 c.2 h1 h2

theorem valueFilterStep_subset (items : List (String × ℚ)) (ft : Option String)
    (fv : Option ℚ) (asc : Bool) :
    ∀ p ∈ valueFilterStep items ft fv asc, p ∈ items := by
  intro p hp
  rcases ft with _ | ftv
  · exact hp
  · rcases fv with _ | fvv
    · exact hp
    · simp only [valueFilterStep] at hp
      by_cases h1 : ftv = "value"
      · rw [if_pos h1] at hp
        cases asc
        · rw [if_neg (by simp)] at hp
          exact List.mem_of_mem_filter hp
        · rw [if_pos rfl] at hp
          exact List.mem_of_mem_filter hp
      · rw [if_neg h1] at hp
        exact hp

theorem percentStep_sublist (items : List (String × ℚ)) (ft : Option String)
    (fp : Option ℚ) : (percentStep items ft fp).Sublist items := by
  unfold percentStep
  split
  · rcases fp with _ | fpv
    · exact List.Sublist.refl _
    · simp only
      split
      · exact List.nil_sublist _
      · split
        · exact List.take_sublist _ _
        · exact List.drop_sublist _ _
  · exact List.Sublist.refl _

theorem applyMetric_pairs (m : List (String × ℚ)) (ft : Option String)
    (fp fv : Option ℚ) (asc : Bool) :
    ∃ l : List (String × ℚ),
      applyMetricFilterAndSort m ft fp fv asc = l.map Prod.fst ∧
      (∀ p ∈ l, p ∈ m) ∧ l.Pairwise (fun a b => pairLe asc a b = true) := by
  refine ⟨percentStep (pySort (pairLe asc) (valueFilterStep m ft fv asc)) ft fp,
    rfl, ?_, ?_⟩
  · intro p hp
    exact valueFilterStep_subset m ft fv asc p
      ((mem_pySort _ _ _).mp ((percentStep_sublist _ _ _).subset hp))
  · exact List.Pairwise.sublist (percentStep_sublist _ _ _)
      (pairwise_pySort _ (pairLe_total asc) (pairLe_trans asc) _)

theorem resort_of_sorted_pairs (m : List (String × ℚ)) (asc : Bool)
    (l : List (String × ℚ)) (hnd : (m.map Prod.fst).Nodup)
    (hsub : ∀ p ∈ l, p ∈ m)
    (hl : l.Pairwise (fun a b => pairLe asc a b = true)) :
    pySort (symLe m asc) (l.map Prod.fst) = l.map Prod.fst := by
  apply pySort_of_pairwise
  rw [List.pairwise_map]
  refine hl.imp_of_mem ?_
  intro a b ha hb hab
  have h1 : dictGet m a.1 = a.2 := dictGet_of_mem m hnd a (hsub a ha)
  have h2 : dictGet m b.1 = b.2 := dictGet_of_mem m hnd b (hsub b hb)
  unfold symLe
  rw [h1, h2]
  exact hab

theorem pySort_fst_comm (m : List (String × ℚ)) (asc : Bool)
    (hnd : (m.map Prod.fst).Nodup) :
    pySort (symLe m asc) (m.map Prod.fst) =
      (pySort (pairLe asc) m).map Prod.fst := by
  apply pySort_map
  intro a ha b hb
  unfold symLe pairLe
  rw [dictGet_of_mem m hnd a ha, dictGet_of_mem m hnd b hb]

theorem percentStep_zero (items : List (String × ℚ)) (ft : Option String)
    (hft : ft = some "top" ∨ ft = some "bottom") :
    percentStep items ft (some 0) = [] := by
  unfold percentStep
  rw [if_pos hft]
  simp only
  rw [if_pos (by norm_num : max (0:ℚ) (min 100 0) = 0)]

theorem percentStep_hundred (items : List (String × ℚ)) (ft : Option String)
    (hft : ft = some "top" ∨ ft = some "bottom") :
    percentStep items ft (some 100) = items := by
  have hclamp : max (0:ℚ) (min 100 100) = 100 := by norm_num
  have hk : percentileCut items.length 100 = max 1 items.length := by
    unfold percentileCut
    rw [show ((items.length : ℚ) * (100 / 100)) = ((items.length : ℤ) : ℚ) by
      push_cast; ring]
    rw [pyRound_intCast]
    simp
  unfold percentStep
  rw [if_pos hft]
  simp only [hclamp]
  rw [if_neg (by norm_num : ¬(100:ℚ) = 0), hk]
  rcases hft with rfl | rfl
  · rw [if_pos rfl]
    exact List.take_of_length_le (Nat.le_max_right 1 _)
  · rw [if_neg (by decide : ¬(some "bottom" = some "top"))]
    rw [show items.length - max 1 items.length = 0 by omega, List.drop_zero]

/-- C2 (amended): with percent = 0 the filter function returns an empty list,
but `run_backtest` then falls back to the full scored set and re-sorts it, so
the pipeline's candidate list is the full scored set in sorted order rather
than empty; with percent = 100 the pipeline produces the full scored set in
sorted order (before truncation to `max_portfolio_size`). -/
theorem claim_C2 (m : List (String × ℚ)) (ft : Option String) (asc : Bool)
    (hft : ft = some "top" ∨ ft = some "bottom")
    (hnd : (m.map Prod.fst).Nodup) :
    applyMetricFilterAndSort m ft (some 0) none asc = [] ∧
    screeningPipeline m ft (some 0) none asc =
      (pySort (pairLe asc) m).map Prod.fst ∧
    screeningPipeline m ft (some 100) none asc =
      (pySort (pairLe asc) m).map Prod.fst := by
  have hvf : valueFilterStep m ft none asc = m := by
    rcases ft with _ | f <;> rfl
  have hzero : applyMetricFilterAndSort m ft (some 0) none asc = [] := by
    unfold applyMetricFilterAndSort
    rw [percentStep_zero _ ft hft]
    rfl
  have hfull : applyMetricFilterAndSort m ft (some 100) none asc =
      (pySort (pairLe asc) m).map Prod.fst := by
    unfold applyMetricFilterAndSort
    rw [hvf, percentStep_hundred _ ft hft]
  refine ⟨hzero, ?_, ?_⟩
  · unfold screeningPipeline
    rw [hzero]
    simp only [if_pos rfl]
    exact pySort_fst_comm m asc hnd
  · unfold screeningPipeline
    rw [hfull]
    by_cases hm : m = []
    · subst hm
      rfl
    · have hne : (pySort (pairLe asc) m).map Prod.fst ≠ [] := by
        intro hc
        have := congrArg List.length hc
        simp only [List.length_map, pySort_length, List.length_nil] at this
        exact hm (List.length_eq_zero.mp this)
      show pySort (symLe m asc)
          (if (pySort (pairLe asc) m).map Prod.fst = [] then m.map Prod.fst
           else (pySort (pairLe asc) m).map Prod.fst) =
        (pySort (pairLe asc) m).map Prod.fst
      rw [if_neg hne]
      exact resort_of_sorted_pairs m asc (pySort (pairLe asc) m) hnd
        (fun p hp => (mem_pySort _ _ _).mp hp)
        (pairwise_pySort _ (pairLe_total asc) (pairLe_trans asc) _)

/-- C2 counterexample: with a one-symbol scored universe and percent = 0 the
screening pipeline produces the full universe (the fallback), not an empty
candidate list. -/
theorem claim_C2_counterexample :
    screeningPipeline [("A", (1:ℚ))] (some "top") (some 0) none false = ["A"] ∧
    screeningPipeline [("A", (1:ℚ))] (some "top") (some 0) none false ≠ [] := by
  have hzero : applyMetricFilterAndSort [("A", (1:ℚ))] (some "top") (some 0)
      none false = [] := by
    unfold applyMetricFilterAndSort
    rw [percentStep_zero _ _ (Or.inl rfl)]
    rfl
  have h : screeningPipeline [("A", (1:ℚ))] (some "top") (some 0) none false
      = ["A"] := by
    unfold screeningPipeline
    rw [hzero]
    rfl
  exact ⟨h, by rw [h]; simp⟩

/-- Witness for `claim_C2` at a concrete input. -/
theorem claim_C2_witness :
    applyMetricFilterAndSort [("A", (1:ℚ)), ("B", 2)] (some "bottom") (some 0)
      none true = [] :=
  (claim_C2 [("A", (1:ℚ)), ("B", 2)] (some "bottom") true (Or.inr rfl)
    (by decide)).1

/-- C8: screening on a criterion and then re-sorting the screened list by the
same score and direction yields the same symbol order: the re-sort neither
adds, removes, nor reorders elements. -/
theorem claim_C8 (m : List (String × ℚ)) (ft : Option String)
    (fp fv : Option ℚ) (asc : Bool) (hnd : (m.map Prod.fst).Nodup) :
    pySort (symLe m asc) (applyMetricFilterAndSort m ft fp fv asc) =
      applyMetricFilterAndSort m ft fp fv asc := by
  obtain ⟨l, hEq, hsub, hpw⟩ := applyMetric_pairs m ft fp fv asc
  rw [hEq]
  exact resort_of_sorted_pairs m asc l hnd hsub hpw

/-- Witness for `claim_C8` at a concrete input. -/
theorem claim_C8_witness :
    pySort (symLe [("A", (2:ℚ)), ("B", 1)] false)
      (applyMetricFilterAndSort [("A", (2:ℚ)), ("B", 1)]
        (some "top") (some 50) none false) =
      applyMetricFilterAndSort [("A", (2:ℚ)), ("B", 1)]
        (some "top") (some 50) none false :=
  claim_C8 [("A", (2:ℚ)), ("B", 1)] (some "top") (some 50) none false
    (by decide)

/-- C3 (amended): for every non-empty scored list and every percent in
(0, 100], the top/bottom percentile filter keeps exactly
`max 1 (pyRound (len * percent / 100))` entries — Python's `round`
(half-to-even), not `ceil` — taken from the head (top) or the tail (bottom)
of the sorted list. -/
theorem claim_C3 (m : List (String × ℚ)) (fp : ℚ) (asc : Bool)
    (hm : m ≠ []) (h0 : 0 < fp) (h100 : fp ≤ 100) :
    applyMetricFilterAndSort m (some "top") (some fp) none asc =
      ((pySort (pairLe asc) m).map Prod.fst).take (percentileCut m.length fp) ∧
    (applyMetricFilterAndSort m (some "top") (some fp) none asc).length =
      percentileCut m.length fp ∧
    applyMetricFilterAndSort m (some "bottom") (some fp) none asc =
      ((pySort (pairLe asc) m).map Prod.fst).drop
        (m.length - percentileCut m.length fp) ∧
    (applyMetricFilterAndSort m (some "bottom") (some fp) none asc).length =
      percentileCut m.length fp := by
  have hn : 1 ≤ m.length := List.length_pos.mpr hm
  have hk : percentileCut m.length fp ≤ m.length := percentileCut_le _ _ hn h100
  have htop := applyMetric_percent_pos m "top" fp asc h0 h100
  have hbot := applyMetric_percent_pos m "bottom" fp asc h0 h100
  norm_num at htop hbot
  rw [if_neg (by decide : ¬("bottom" = "top"))] at hbot
  refine ⟨htop, ?_, ?_, ?_⟩
  · rw [htop]
    simp only [List.length_take, List.length_map, pySort_length]
    omega
  · rw [hbot, List.map_drop]
  · rw [hbot]
    simp only [List.length_map, List.length_drop, pySort_length]
    omega

/-- C3 counterexample: with three scored symbols and percent = 49 the code
keeps `max(1, round(3 * 0.49)) = 1` entry, whereas the claimed formula
`max(1, ceil(3 * 0.49))` equals 2. -/
theorem claim_C3_counterexample :
    (applyMetricFilterAndSort [("A", 3), ("B", 2), ("C", 1)]
      (some "top") (some 49) none false).length = 1 ∧
    (max 1 ⌈(3 : ℚ) * (49 / 100)⌉ : ℤ) = 2 := by
  constructor
  · have h := applyMetric_percent_pos [("A", 3), ("B", 2), ("C", 1)]
      "top" 49 false (by norm_num) (by norm_num)
    norm_num at h
    rw [h]
    simp only [List.length_map, List.length_take, pySort_length]
    have hcut : percentileCut 3 49 = 1 := by
      unfold percentileCut pyRound
      simp only [ratFloor_eq_intFloor]
      norm_num
    simp [hcut]
  · have : (⌈(3 : ℚ) * (49 / 100)⌉ : ℤ) = 2 := by
      rw [Int.ceil_eq_iff]
      constructor <;> norm_num
    rw [this]
    decide

/-- Witness for `claim_C3` at a concrete input. -/
theorem claim_C3_witness :
    (applyMetricFilterAndSort [("A", (3:ℚ)), ("B", 2)]
      (some "top") (some 50) none false).length = percentileCut 2 50 :=
  (claim_C3 [("A", (3:ℚ)), ("B", 2)] 50 false (by simp)
    (by norm_num) (by norm_num)).2.1

/-- Boolean prefix test on character lists. -/
def charsPrefix : List Char → List Char → Bool
  | [], _ => true
  | _ :: _, [] => false
  | a :: as, b :: bs => a == b && charsPrefix as bs

/-- Boolean infix test on character lists. -/
def charsInfix (needle : List Char) : List Char → Bool
  | [] => needle.isEmpty
  | c :: cs => charsPrefix needle (c :: cs) || charsInfix needle cs

/-- Python's substring test `needle in hay`. -/
def pyIn (needle hay : String) : Bool := charsInfix needle.toList hay.toList

/-- Positive keyword list of `map_report_type_to_disclosure_code`. -/
def positiveKeywords : List String :=
  ["유상증자", "무상증자", "유무상증자", "자기주식 취득", "신탁계약 체결",
   "전환사채권 발행", "신주인수권부사채권 발행"]

/-- Negative keyword list of `map_report_type_to_disclosure_code`. -/
def negativeKeywords : List String := ["감자", "자기주식 처분"]

/-- Embedding of `map_report_type_to_disclosure_code`
(portfolio_backtest.py 447–471): positive keywords first, then negative,
else neutral 3. -/
def mapReportTypeToDisclosureCode (reportType : String) : ℤ :=
  if positiveKeywords.any (fun k => pyIn k reportType) then 1
  else if negativeKeywords.any (fun k => pyIn k reportType) then 2
  else 3

/-- Row of the indicator DataFrame (`get_dart_indicator_data`), ordered by
date ascending; `idc_score = none` models a NULL/NaN score. -/
structure IndicatorRow where
  date : ℤ
  report_type : String
  idc_nm : String
  idc_score : Option ℚ
deriving Repr, DecidableEq

/-- The `condition` dict of an entry of `event_indicator_conditions`:
`cmin`/`cmax` model the "min"/"max" keys. -/
structure CondSpec where
  cmin : Option ℚ
  cmax : Option ℚ
  operator : String
deriving Repr, DecidableEq

/-- One entry of `event_indicator_conditions`. -/
structure IndicatorCondition where
  report_type : String
  idc_nm : String
  action : String
  delay_days : ℤ
  condition : CondSpec
deriving Repr, DecidableEq

/-- The dict returned by `check_indicator_conditions`. -/
structure IndicatorSignal where
  action : String
  report_type : String
  idc_nm : String
  idc_score : Option ℚ
deriving Repr, DecidableEq

/-- The NEUTRAL result of `check_indicator_conditions`. -/
def neutralIndicatorSignal : IndicatorSignal := ⟨"NEUTRAL", "", "", none⟩

/-- The operator dispatch of `check_indicator_conditions`
(portfolio_backtest.py 1190–1224): `condition_met` for the latest score.
The `==` operator uses the 1e-6 float-equality tolerance of the source. -/
def conditionMet (c : CondSpec) (s : ℚ) : Bool :=
  if c.operator = "between" then
    (match c.cmin with
     | some mn => decide (mn ≤ s)
     | none => true) &&
    (match c.cmax with
     | some mx => decide (s ≤ mx)
     | none => true)
  else if c.operator = ">=" then
    match c.cmin with
    | some mn => decide (mn ≤ s)
    | none => false
  else if c.operator = "<=" then
    match c.cmax with
    | some mx => decide (s ≤ mx)
    | none => false
  else if c.operator = ">" then
    match c.cmin with
    | some mn => decide (mn < s)
    | none => false
  else if c.operator = "<" then
    match c.cmax with
    | some mx => decide (s < mx)
    | none => false
  else if c.operator = "==" then
    match c.cmin.orElse (fun _ => c.cmax) with
    | some t => decide (|s - t| < 1/1000000)
    | none => false
  else false

/-- The per-condition loop of `check_indicator_conditions`: the first
condition whose latest matching record has a non-null score satisfying the
range test and whose delayed signal date has arrived wins; otherwise the
loop continues with the next condition. -/
def checkConditionsLoop (recent : List IndicatorRow) (currentDate : ℤ) :
    List IndicatorCondition → IndicatorSignal
  | [] => neutralIndicatorSignal
  | c :: rest =>
    let matching := recent.filter fun r =>
      r.report_type == c.report_type && r.idc_nm == c.idc_nm
    match matching.getLast? with
    | none => checkConditionsLoop recent currentDate rest
    | some latest =>
      match latest.idc_score with
      | none => checkConditionsLoop recent currentDate rest
      | some s =>
        if conditionMet c.condition s then
          if latest.date + c.delay_days ≤ currentDate then
            { action := c.action, report_type := c.report_type,
              idc_nm := c.idc_nm, idc_score := some s }
          else checkConditionsLoop recent currentDate rest
        else checkConditionsLoop recent currentDate rest

/-- Embedding of `check_indicator_conditions`
(portfolio_backtest.py 1143–1241). -/
def checkIndicatorConditions (indicatorRows : List IndicatorRow)
    (conds : List IndicatorCondition) (currentDate : ℤ) : IndicatorSignal :=
  if indicatorRows.isEmpty || conds.isEmpty then neutralIndicatorSignal
  else
    let recent := indicatorRows.filter fun r => decide (r.date ≤ currentDate)
    if recent.isEmpty then neutralIndicatorSignal
    else checkConditionsLoop recent currentDate conds

/-- Row of the disclosure DataFrame (`get_dart_disclosure_data`), ordered by
date ascending. -/
structure DisclosureRow where
  date : ℤ
  report_type : String
  event_type : String
  category : String
  disclosure : ℤ
deriving Repr, DecidableEq

/-- The `{action, delay_days}` value of a `category_signals` /
`event_signals` entry. -/
structure SignalConfig where
  action : String
  delay_days : ℤ
deriving Repr, DecidableEq

/-- The dict returned by `generate_category_signals` (action, categories,
event_type). -/
structure CategorySignal where
  action : String
  categories : List String
  event_type : String
deriving Repr, DecidableEq

/-- Stage 1 of `generate_category_signals` (portfolio_backtest.py
1288–1309): scan `event_signals` in insertion order; the first name that
occurs in the latest row's event_type or report_type AND whose delayed
signal date has arrived stops the scan (Python `break`) and yields its
action; a matching name whose delay has not arrived does not stop the
scan. -/
def eventSignalScan (latest : DisclosureRow) (currentDate : ℤ) :
    List (String × SignalConfig) → Option (String × String)
  | [] => none
  | (name, cfg) :: rest =>
    if pyIn name latest.event_type || pyIn name latest.report_type then
      if latest.date + cfg.delay_days ≤ currentDate then some (cfg.action, name)
      else eventSignalScan latest currentDate rest
    else eventSignalScan latest currentDate rest

/-- Stages 2–3 of `generate_category_signals` (portfolio_backtest.py
1311–1367) when no event signal fired: look the latest row's category up in
`category_signals` and resolve. -/
def categoryStage (latest : DisclosureRow) (currentDate : ℤ)
    (categorySignals : List (String × SignalConfig)) : CategorySignal :=
  match categorySignals.find? (fun p => p.1 == latest.category) with
  | some (cat, cfg) =>
    if latest.date + cfg.delay_days ≤ currentDate then
      if cfg.action = "BUY" then ⟨"BUY", [cat], latest.event_type⟩
      else if cfg.action = "SELL" then ⟨"SELL", [cat], latest.event_type⟩
      else ⟨"NEUTRAL", [cat], latest.event_type⟩
    else ⟨"NEUTRAL", [], latest.event_type⟩
  | none => ⟨"NEUTRAL", [], latest.event_type⟩

/-- Embedding of `generate_category_signals`
(portfolio_backtest.py 1247–1367): event-level rules on the single most
recent disclosure row first, then category-level rules; within a stage SELL
dominates BUY. -/
def generateCategorySignals (rows : List DisclosureRow)
    (categorySignals eventSignals : List (String × SignalConfig))
    (currentDate : ℤ) : CategorySignal :=
  if rows.isEmpty then ⟨"NEUTRAL", [], ""⟩
  else
    let recent := rows.filter fun r => decide (r.date ≤ currentDate)
    match recent.getLast? with
    | none => ⟨"NEUTRAL", [], ""⟩
    | some latest =>
      match eventSignalScan latest currentDate eventSignals with
      | some (act, name) =>
        if act = "BUY" then ⟨"BUY", [latest.category], name⟩
        else if act = "SELL" then ⟨"SELL", [latest.category], name⟩
        else categoryStage latest currentDate categorySignals
      | none => categoryStage latest currentDate categorySignals

/-- C7: the derived disclosure code is total and deterministic with values
in {1, 2, 3}: 1 when the report_type contains a positive keyword (checked
first), 2 when it contains a negative keyword and no positive one, and 3
otherwise. -/
theorem claim_C7 (rt : String) :
    (mapReportTypeToDisclosureCode rt = 1 ∨
     mapReportTypeToDisclosureCode rt = 2 ∨
     mapReportTypeToDisclosureCode rt = 3) ∧
    (positiveKeywords.any (fun k => pyIn k rt) = true →
      mapReportTypeToDisclosureCode rt = 1) ∧
    (positiveKeywords.any (fun k => pyIn k rt) = false →
     negativeKeywords.any (fun k => pyIn k rt) = true →
      mapReportTypeToDisclosureCode rt = 2) ∧
    (positiveKeywords.any (fun k => pyIn k rt) = false →
     negativeKeywords.any (fun k => pyIn k rt) = false →
      mapReportTypeToDisclosureCode rt = 3) := by
  unfold mapReportTypeToDisclosureCode
  by_cases h1 : positiveKeywords.any (fun k => pyIn k rt) = true
  · rw [if_pos h1]
    exact ⟨Or.inl rfl, fun _ => rfl, fun hf _ => absurd h1 (by simp [hf]),
      fun hf _ => absurd h1 (by simp [hf])⟩
  · rw [if_neg h1]
    by_cases h2 : negativeKeywords.any (fun k => pyIn k rt) = true
    · rw [if_pos h2]
      exact ⟨Or.inr (Or.inl rfl), fun ht => absurd ht h1, fun _ _ => rfl,
        fun _ hf => absurd h2 (by simp [hf])⟩
    · rw [if_neg h2]
      exact ⟨Or.inr (Or.inr rfl), fun ht => absurd ht h1,
        fun _ ht => absurd ht h2, fun _ _ => rfl⟩

/-- Witness for `claim_C7` at concrete report types. -/
theorem claim_C7_witness :
    mapReportTypeToDisclosureCode "유상증자 결정" = 1 ∧
    mapReportTypeToDisclosureCode "기타" = 3 :=
  ⟨(claim_C7 "유상증자 결정").2.1 (by decide),
   (claim_C7 "기타").2.2.2 (by decide) (by decide)⟩

/-- Provenance of a logged trade: a tagged model of the distinct `reason`
strings passed to `log_trade` ('리밸런싱', '지표 조건: …', '카테고리 신호: …',
'긍정 이벤트: …', '부정 이벤트: …'); the string formats are pairwise
distinguishable, so tags model them faithfully. -/
inductive TradeReason where
  | rebalance
  | indicatorCond (report_type idc_nm : String) (idc_score : Option ℚ)
  | categorySig (categories : List String) (event_type : String)
  | positiveEvent (event_type : String)
  | negativeEvent (event_type : String)
deriving Repr, DecidableEq

/-- The three layered signal configurations plus the disclosure toggle, as
held by `PortfolioStrategy`. -/
structure SignalEnv where
  useDart : Bool
  conds : List IndicatorCondition
  categorySignals : List (String × SignalConfig)
  eventSignals : List (String × SignalConfig)

/-- Tier 1 of the buy/sell resolution in `PortfolioStrategy.rebalance`
(lines 1527–1546) and `PortfolioStrategy.manage_position` (lines
1617–1636); the two code blocks are identical up to the intent string
("BUY" at rebalance, "SELL" at position management). -/
def indicatorTier (env : SignalEnv) (indicatorRows : List IndicatorRow)
    (date : ℤ) (intent : String) : Option TradeReason :=
  if env.useDart && !env.conds.isEmpty && !indicatorRows.isEmpty then
    if (checkIndicatorConditions indicatorRows env.conds date).action = intent then
      some (.indicatorCond
        (checkIndicatorConditions indicatorRows env.conds date).report_type
        (checkIndicatorConditions indicatorRows env.conds date).idc_nm
        (checkIndicatorConditions indicatorRows env.conds date).idc_score)
    else none
  else none

/-- Tier 2 of the buy/sell resolution (rebalance lines 1548–1565, manage
lines 1638–1655), identical up to the intent string. -/
def categoryTier (env : SignalEnv) (sentimentRows : List DisclosureRow)
    (date : ℤ) (intent : String) : Option TradeReason :=
  if env.useDart && !sentimentRows.isEmpty &&
      (!env.categorySignals.isEmpty || !env.eventSignals.isEmpty) then
    if (generateCategorySignals sentimentRows env.categorySignals
        env.eventSignals date).action = intent then
      some (.categorySig
        (generateCategorySignals sentimentRows env.categorySignals
          env.eventSignals date).categories
        (generateCategorySignals sentimentRows env.categorySignals
          env.eventSignals date).event_type)
    else none
  else none

/-- The BUY-intent resolution of `PortfolioStrategy.rebalance`
(portfolio_backtest.py 1523–1580) for one candidate symbol.
`leak` models the Python locals `disclosure`/`event_type` of the candidate
loop, which are not reset between iterations: the `if disclosure == 1` test
(line 1576) sits outside the `if len(before_dates) > 0` block, so when the
current symbol has no disclosure row at or before `date` it reads the
previous iteration's values (on a fresh call this raises `NameError`,
swallowed by the bare `except`). Returns the buy reason (when buying) and
the updated leak state. -/
def rebalanceBuyDecision (env : SignalEnv) (indicatorRows : List IndicatorRow)
    (sentimentRows : List DisclosureRow) (date : ℤ)
    (leak : Option (ℤ × String)) : Option TradeReason × Option (ℤ × String) :=
  match indicatorTier env indicatorRows date "BUY" with
  | some r => (some r, leak)
  | none =>
    match categoryTier env sentimentRows date "BUY" with
    | some r => (some r, leak)
    | none =>
      if env.useDart && !sentimentRows.isEmpty then
        let before := sentimentRows.filter fun r => decide (r.date ≤ date)
        let leak2 :=
          match before.getLast? with
          | some latest => some (latest.disclosure, latest.event_type)
          | none => leak
        match leak2 with
        | some (d, et) =>
          if d = 1 then (some (.positiveEvent et), leak2) else (none, leak2)
        | none => (none, leak2)
      else (none, leak)

/-- Tier 3 of `PortfolioStrategy.manage_position` (lines 1657–1670); unlike
the rebalance loop, the `if disclosure == 2` test is properly nested inside
the `len(before_dates) > 0` check, so there is no leaked state. -/
def manageTier3 (env : SignalEnv) (sentimentRows : List DisclosureRow)
    (date : ℤ) : Option TradeReason :=
  if env.useDart && !sentimentRows.isEmpty then
    match (sentimentRows.filter fun r => decide (r.date ≤ date)).getLast? with
    | some latest =>
      if latest.disclosure = 2 then some (.negativeEvent latest.event_type)
      else none
    | none => none
  else none

/-- The SELL-intent resolution of `PortfolioStrategy.manage_position`
(portfolio_backtest.py 1613–1670) for one held symbol. -/
def manageSellDecision (env : SignalEnv) (indicatorRows : List IndicatorRow)
    (sentimentRows : List DisclosureRow) (date : ℤ) : Option TradeReason :=
  match indicatorTier env indicatorRows date "SELL" with
  | some r => some r
  | none =>
    match categoryTier env sentimentRows date "SELL" with
    | some r => some r
    | none => manageTier3 env sentimentRows date

theorem indicatorTier_fires (env : SignalEnv) (ir : List IndicatorRow)
    (date : ℤ) (intent : String) (hdart : env.useDart = true)
    (hconds : env.conds ≠ []) (hind : ir ≠ [])
    (hact : (checkIndicatorConditions ir env.conds date).action = intent) :
    indicatorTier env ir date intent =
      some (.indicatorCond
        (checkIndicatorConditions ir env.conds date).report_type
        (checkIndicatorConditions ir env.conds date).idc_nm
        (checkIndicatorConditions ir env.conds date).idc_score) := by
  unfold indicatorTier
  have hc : env.conds.isEmpty = false := by simp [List.isEmpty_iff, hconds]
  have hi : ir.isEmpty = false := by simp [List.isEmpty_iff, hind]
  simp only [hdart, hc, hi, Bool.not_false, Bool.and_self, Bool.true_and,
    if_true, hact, if_pos rfl]

/-- C1 (amended): an indicator-condition match whose action equals the
checked intent decides the outcome alone: when `check_indicator_conditions`
returns action BUY, the rebalance BUY check buys with the indicator
provenance regardless of the category/event configuration and the
disclosure history; symmetrically a SELL result decides the
position-management SELL check. A matching condition whose action differs
from the checked intent does not block the lower tiers (see the
counterexample). -/
theorem claim_C1 (env : SignalEnv) (indicatorRows : List IndicatorRow)
    (sentimentRows : List DisclosureRow) (date : ℤ)
    (leak : Option (ℤ × String)) (hdart : env.useDart = true)
    (hconds : env.conds ≠ []) (hind : indicatorRows ≠ []) :
    ((checkIndicatorConditions indicatorRows env.conds date).action = "BUY" →
      (rebalanceBuyDecision env indicatorRows sentimentRows date leak).1 =
        some (.indicatorCond
          (checkIndicatorConditions indicatorRows env.conds date).report_type
          (checkIndicatorConditions indicatorRows env.conds date).idc_nm
          (checkIndicatorConditions indicatorRows env.conds date).idc_score)) ∧
    ((checkIndicatorConditions indicatorRows env.conds date).action = "SELL" →
      manageSellDecision env indicatorRows sentimentRows date =
        some (.indicatorCond
          (checkIndicatorConditions indicatorRows env.conds date).report_type
          (checkIndicatorConditions indicatorRows env.conds date).idc_nm
          (checkIndicatorConditions indicatorRows env.conds date).idc_score)) := by
  constructor
  · intro hbuy
    unfold rebalanceBuyDecision
    rw [indicatorTier_fires env indicatorRows date "BUY" hdart hconds hind hbuy]
  · intro hsell
    unfold manageSellDecision
    rw [indicatorTier_fires env indicatorRows date "SELL" hdart hconds hind hsell]

/-- Data for the C1 counterexample: one configured indicator condition with
action SELL that matches on the evaluation date. -/
def c1conds : List IndicatorCondition :=
  [⟨"RT", "IDC", "SELL", 0, ⟨none, none, "between"⟩⟩]

/-- Indicator history for the C1 counterexample. -/
def c1indRows : List IndicatorRow := [⟨0, "RT", "IDC", some 1⟩]

/-- Disclosure history for the C1 counterexample (neutral code 3,
category "C"). -/
def c1sentRows : List DisclosureRow := [⟨0, "X", "x", "C", 3⟩]

/-- Signal environment for the C1 counterexample: the category "C" is
configured as a BUY signal. -/
def c1env : SignalEnv := ⟨true, c1conds, [("C", ⟨"BUY", 0⟩)], []⟩

/-- C1 counterexample: the configured indicator condition matches on the
date (the signal returns its action, SELL), yet the rebalance BUY check
resolves to a BUY from the category signal — the category signal overrides
the indicator-condition match, contradicting the claim that the matched
condition's action alone determines the resolved action. -/
theorem claim_C1_counterexample :
    (checkIndicatorConditions c1indRows c1conds 0).action = "SELL" ∧
    (rebalanceBuyDecision c1env c1indRows c1sentRows 0 none).1 =
      some (.categorySig ["C"] "x") := by
  constructor
  · rfl
  · rfl

/-- Witness for `claim_C1` at a concrete input. -/
theorem claim_C1_witness :
    (rebalanceBuyDecision ⟨true, [⟨"RT", "IDC", "BUY", 0, ⟨none, none, "between"⟩⟩], [], []⟩
      [⟨0, "RT", "IDC", some 1⟩] [] 0 none).1 =
      some (.indicatorCond "RT" "IDC" (some 1)) :=
  (claim_C1 ⟨true, [⟨"RT", "IDC", "BUY", 0, ⟨none, none, "between"⟩⟩], [], []⟩
    [⟨0, "RT", "IDC", some 1⟩] [] 0 none rfl (by simp) (by simp)).1 rfl

/-- One logged trade (`log_trade`, portfolio_backtest.py 1699–1718). -/
structure TradeRec where
  date : ℤ
  symbol : String
  action : String
  size : ℤ
  price : ℚ
  amount : ℚ
  reason : TradeReason
deriving Repr, DecidableEq

/-- Per-symbol market data for one simulated day: the day's close, the
day's ATR(14) value (backtrader's indicator, taken as an oracle input), and
the symbol's disclosure and indicator histories. -/
structure SymbolData where
  close : ℚ
  atr : ℚ
  sentiment : List DisclosureRow
  indicators : List IndicatorRow

/-- Strategy parameters: the signal configuration plus
`params(rebalancing_period, max_positions)`. -/
structure StratParams where
  env : SignalEnv
  maxPositions : ℕ
  rebalancingPeriod : ℤ

/-- Strategy state: broker positions (sizes by symbol; market orders fill
at the day's close in this model, so `portfolio_positions` coincides with
the broker's position map), broker cash, and the last rebalance date. -/
structure StratState where
  positions : List (String × ℤ)
  cash : ℚ
  lastRebalance : Option ℤ

/-- Python `int()` on a float: truncation toward zero. -/
def pyInt (q : ℚ) : ℤ := if 0 ≤ q then q.floor else q.ceil

/-- Phase 1 of `PortfolioStrategy.rebalance` (portfolio_backtest.py
1499–1507): close every currently held position whose symbol is among the
strategy's data feeds and whose broker size is positive; log each as a SELL
with the rebalance reason at the symbol's close. -/
def rebalanceSells (selected : List (String × SymbolData))
    (positions : List (String × ℤ)) (date : ℤ) : List TradeRec :=
  positions.filterMap fun p =>
    match selected.find? (fun q => q.1 == p.1) with
    | some q =>
      if (0 : ℤ) < p.2 then
        some ⟨date, p.1, "SELL", p.2, q.2.close, (p.2 : ℚ) * q.2.close,
          TradeReason.rebalance⟩
      else none
    | none => none

/-- Phase 2 of `PortfolioStrategy.rebalance` (portfolio_backtest.py
1511–1587): iterate the first `max_positions` candidates, resolve the BUY
intent (threading the leaked tier-3 locals), size each buy as
`int(cash_per_position / close)` and execute/log it when positive. Returns
the new position map and the BUY log entries, in order. -/
def rebalanceBuys (prm : StratParams) (date : ℤ) (cashPer : ℚ) :
    List (String × SymbolData) → Option (ℤ × String) →
      List (String × ℤ) × List TradeRec
  | [], _ => ([], [])
  | (sym, d) :: rest, leak =>
    let dec := rebalanceBuyDecision prm.env d.indicators d.sentiment date leak
    match dec.1 with
    | some r =>
      let size := pyInt (cashPer / d.close)
      if 0 < size then
        let next := rebalanceBuys prm date cashPer rest dec.2
        ((sym, size) :: next.1,
          ⟨date, sym, "BUY", size, d.close, (size : ℚ) * d.close, r⟩ :: next.2)
      else rebalanceBuys prm date cashPer rest dec.2
    | none => rebalanceBuys prm date cashPer rest dec.2

/-- Embedding of `PortfolioStrategy.rebalance` (portfolio_backtest.py
1487–1587): all liquidations are submitted and logged, then
`portfolio_positions.clear()`, then the buy loop over
`selected_symbols[:max_positions]` runs. `cash_per_position` divides the
broker cash as read before any same-day fill (backtrader fills the
submitted market orders on a later bar). Returns the new state and the log
entries emitted by this rebalance. -/
def rebalanceStep (prm : StratParams) (selected : List (String × SymbolData))
    (st : StratState) (date : ℤ) : StratState × List TradeRec :=
  let sells := rebalanceSells selected st.positions date
  let n := min selected.length prm.maxPositions
  let cashPer := if 0 < n then st.cash / (n : ℚ) else 0
  let bought := rebalanceBuys prm date cashPer (selected.take prm.maxPositions) none
  ({ positions := bought.1,
     cash := st.cash + (sells.map (fun r => r.amount)).sum
       - (bought.2.map (fun r => r.amount)).sum,
     lastRebalance := some date }, sells ++ bought.2)

/-- Embedding of `PortfolioStrategy.manage_position` (portfolio_backtest.py
1589–1697) for one symbol: no-op without a position or without disclosure
data; a resolved SELL closes the position and logs it, pre-empting the
risk orders; otherwise the ATR-based stop and take-profit orders are
(re)placed with the ATR floored at 0.1. Returns the updated position map,
the emitted log entries, and the placed `(stop_price, take_profit)`. -/
def manageStep (prm : StratParams) (sym : String) (d : SymbolData)
    (positions : List (String × ℤ)) (date : ℤ) :
    List (String × ℤ) × List TradeRec × Option (ℚ × ℚ) :=
  let size := ((positions.find? (fun p => p.1 == sym)).map Prod.snd).getD 0
  if size = 0 then (positions, [], none)
  else if d.sentiment.isEmpty then (positions, [], none)
  else
    match manageSellDecision prm.env d.indicators d.sentiment date with
    | some r =>
      (positions.eraseP (fun p => p.1 == sym),
        [⟨date, sym, "SELL", size, d.close, (size : ℚ) * d.close, r⟩], none)
    | none =>
      let atr := max d.atr (1/10)
      (positions, [], some (d.close - 2 * atr, d.close + 3 * atr))

/-- The rebalance trigger of `PortfolioStrategy.next`
(portfolio_backtest.py 1476–1479). -/
def rebalanceDue (lastRebalance : Option ℤ) (date : ℤ) (period : ℤ) : Bool :=
  match lastRebalance with
  | none => true
  | some d => decide (period ≤ date - d)

/-- The daily position-management loop of `PortfolioStrategy.next`
(portfolio_backtest.py 1483–1485), threading the position map through each
symbol's `manage_position` in data-feed order. -/
def manageLoop (prm : StratParams) (date : ℤ) :
    List (String × SymbolData) → List (String × ℤ) →
      List (String × ℤ) × List TradeRec
  | [], positions => (positions, [])
  | (sym, d) :: rest, positions =>
    let one := manageStep prm sym d positions date
    let next := manageLoop prm date rest one.1
    (next.1, one.2.1 ++ next.2)

/-- Embedding of `PortfolioStrategy.next` (portfolio_backtest.py
1465–1485): rebalance first when due, then position management for every
data feed in order. Returns the new state and the log entries emitted this
day, in order. -/
def nextStep (prm : StratParams) (selected : List (String × SymbolData))
    (st : StratState) (date : ℤ) : StratState × List TradeRec :=
  let reb :=
    if rebalanceDue st.lastRebalance date prm.rebalancingPeriod then
      rebalanceStep prm selected st date
    else (st, [])
  let man := manageLoop prm date selected reb.1.positions
  ({ reb.1 with positions := man.1 }, reb.2 ++ man.2)

theorem indicatorTier_shape (env : SignalEnv) (ir : List IndicatorRow)
    (date : ℤ) (intent : String) (r : TradeReason)
    (h : indicatorTier env ir date intent = some r) :
    ∃ a b c, r = TradeReason.indicatorCond a b c := by
  unfold indicatorTier at h
  split at h
  · split at h
    · exact ⟨_, _, _, (Option.some.inj h).symm⟩
    · simp at h
  · simp at h

theorem categoryTier_shape (env : SignalEnv) (sr : List DisclosureRow)
    (date : ℤ) (intent : String) (r : TradeReason)
    (h : categoryTier env sr date intent = some r) :
    ∃ a b, r = TradeReason.categorySig a b := by
  unfold categoryTier at h
  split at h
  · split at h
    · exact ⟨_, _, (Option.some.inj h).symm⟩
    · simp at h
  · simp at h

theorem manageTier3_shape (env : SignalEnv) (sr : List DisclosureRow)
    (date : ℤ) (r : TradeReason) (h : manageTier3 env sr date = some r) :
    ∃ a, r = TradeReason.negativeEvent a := by
  unfold manageTier3 at h
  split at h
  · split at h
    · split at h
      · exact ⟨_, (Option.some.inj h).symm⟩
      · simp at h
    · simp at h
  · simp at h

theorem manageSellDecision_ne_rebalance (env : SignalEnv)
    (ir : List IndicatorRow) (sr : List DisclosureRow) (date : ℤ)
    (r : TradeReason) (h : manageSellDecision env ir sr date = some r) :
    r ≠ TradeReason.rebalance := by
  unfold manageSellDecision at h
  cases h1 : indicatorTier env ir date "SELL" with
  | some r1 =>
    rw [h1] at h
    obtain ⟨a, b, c, rfl⟩ := indicatorTier_shape _ _ _ _ _ h1
    cases Option.some.inj h
    simp
  | none =>
    rw [h1] at h
    cases h2 : categoryTier env sr date "SELL" with
    | some r2 =>
      rw [h2] at h
      obtain ⟨a, b, rfl⟩ := categoryTier_shape _ _ _ _ _ h2
      cases Option.some.inj h
      simp
    | none =>
      rw [h2] at h
      obtain ⟨a, rfl⟩ := manageTier3_shape _ _ _ _ h
      simp

theorem rebalanceSells_shape (selected : List (String × SymbolData))
    (positions : List (String × ℤ)) (date : ℤ) :
    ∀ r ∈ rebalanceSells selected positions date,
      r.action = "SELL" ∧ r.reason = TradeReason.rebalance := by
  intro r hr
  unfold rebalanceSells at hr
  rcases List.mem_filterMap.mp hr with ⟨p, _, hf⟩
  split at hf
  · split at hf
    · injection hf with h
      subst h
      exact ⟨rfl, rfl⟩
    · simp at hf
  · simp at hf

theorem rebalanceBuys_action (prm : StratParams) (date : ℤ) (cashPer : ℚ) :
    ∀ (l : List (String × SymbolData)) (leak : Option (ℤ × String)),
      ∀ r ∈ (rebalanceBuys prm date cashPer l leak).2, r.action = "BUY" := by
  intro l
  induction l with
  | nil =>
    intro leak r hr
    simp [rebalanceBuys] at hr
  | cons x rest ih =>
    intro leak r hr
    obtain ⟨sym, d⟩ := x
    simp only [rebalanceBuys] at hr
    split at hr
    · split at hr
      · rcases List.mem_cons.mp hr with h1 | h1
        · subst h1; rfl
        · exact ih _ r h1
      · exact ih _ r hr
    · exact ih _ r hr

theorem manageStep_emitted (prm : StratParams) (sym : String) (d : SymbolData)
    (positions : List (String × ℤ)) (date : ℤ) :
    ∀ r ∈ (manageStep prm sym d positions date).2.1,
      r.action = "SELL" ∧ r.reason ≠ TradeReason.rebalance := by
  intro r hr
  simp only [manageStep] at hr
  split at hr
  · simp at hr
  · split at hr
    · simp at hr
    · split at hr
      case h_1 rs heq =>
        rcases List.mem_singleton.mp hr with rfl
        exact ⟨rfl, manageSellDecision_ne_rebalance _ _ _ _ rs heq⟩
      case h_2 => simp at hr

theorem manageLoop_emitted (prm : StratParams) (date : ℤ) :
    ∀ (l : List (String × SymbolData)) (positions : List (String × ℤ)),
      ∀ r ∈ (manageLoop prm date l positions).2,
        r.action = "SELL" ∧ r.reason ≠ TradeReason.rebalance := by
  intro l
  induction l with
  | nil =>
    intro positions r hr
    simp [manageLoop] at hr
  | cons x rest ih =>
    intro positions r hr
    obtain ⟨sym, d⟩ := x
    simp only [manageLoop] at hr
    rcases List.mem_append.mp hr with h1 | h1
    · exact manageStep_emitted prm sym d positions date r h1
    · exact ih _ r h1

theorem nextStep_log_decomp (prm : StratParams)
    (selected : List (String × SymbolData)) (st : StratState) (date : ℤ)
    (hdue : rebalanceDue st.lastRebalance date prm.rebalancingPeriod = true) :
    ∃ cashPer pos2,
      (nextStep prm selected st date).2 =
        rebalanceSells selected st.positions date ++
        (rebalanceBuys prm date cashPer (selected.take prm.maxPositions) none).2 ++
        (manageLoop prm date selected pos2).2 := by
  refine ⟨if 0 < min selected.length prm.maxPositions then
      st.cash / ((min selected.length prm.maxPositions : ℕ) : ℚ) else 0,
    (rebalanceBuys prm date
      (if 0 < min selected.length prm.maxPositions then
        st.cash / ((min selected.length prm.maxPositions : ℕ) : ℚ) else 0)
      (selected.take prm.maxPositions) none).1, ?_⟩
  unfold nextStep rebalanceStep
  rw [hdue]
  rfl

theorem getElem?_append_left_of_lt {A B : List α} {i : ℕ} (h : i < A.length) :
    (A ++ B)[i]? = A[i]? := by
  rw [List.getElem?_append, if_pos h]

theorem getElem?_append_right_of_le {A B : List α} {i : ℕ} (h : A.length ≤ i) :
    (A ++ B)[i]? = B[i - A.length]? := by
  rw [List.getElem?_append, if_neg (not_lt.mpr h)]

theorem mem_of_getElem?_eq (l : List α) (i : ℕ) (a : α) (h : l[i]? = some a) :
    a ∈ l := by
  obtain ⟨hlt, he⟩ := List.getElem?_eq_some.mp h
  exact he ▸ List.getElem_mem hlt

/-- C4: on every day on which the rebalance fires, (i) every same-day
rebalance-reason SELL entry precedes every same-day BUY entry in the
emitted trade log, and (ii) every position held at the start of the
rebalance (positive size, symbol among the data feeds — an invariant of
reachable states, since buys are only placed for feed symbols) is logged as
a full-size rebalance SELL at an index before every BUY of the day. -/
theorem claim_C4 (prm : StratParams) (selected : List (String × SymbolData))
    (st : StratState) (date : ℤ)
    (hdue : rebalanceDue st.lastRebalance date prm.rebalancingPeriod = true)
    (hfeeds : ∀ p ∈ st.positions, p.1 ∈ selected.map Prod.fst) :
    (∀ (i j : ℕ) (ri rj : TradeRec),
      (nextStep prm selected st date).2[i]? = some ri →
      (nextStep prm selected st date).2[j]? = some rj →
      ri.action = "SELL" → ri.reason = TradeReason.rebalance →
      rj.action = "BUY" → i < j) ∧
    (∀ p ∈ st.positions, 0 < p.2 →
      ∃ (i : ℕ) (ri : TradeRec),
        (nextStep prm selected st date).2[i]? = some ri ∧
        ri.symbol = p.1 ∧ ri.action = "SELL" ∧
        ri.reason = TradeReason.rebalance ∧ ri.size = p.2 ∧
        ∀ (j : ℕ) (rj : TradeRec),
          (nextStep prm selected st date).2[j]? = some rj →
          rj.action = "BUY" → i < j) := by
  obtain ⟨cashPer, pos2, hlog⟩ := nextStep_log_decomp prm selected st date hdue
  set S := rebalanceSells selected st.positions date with hSdef
  set B := (rebalanceBuys prm date cashPer (selected.take prm.maxPositions) none).2
    with hBdef
  set M := (manageLoop prm date selected pos2).2 with hMdef
  have hSellLt : ∀ i ri, (S ++ B ++ M)[i]? = some ri → ri.action = "SELL" →
      ri.reason = TradeReason.rebalance → i < S.length := by
    intro i ri hi hsell hreb
    by_contra hge
    push_neg at hge
    rw [List.append_assoc, getElem?_append_right_of_le hge] at hi
    have hmem := mem_of_getElem?_eq _ _ _ hi
    rcases List.mem_append.mp hmem with hb | hm
    · have hact := rebalanceBuys_action prm date cashPer _ none ri hb
      rw [hact] at hsell
      exact absurd hsell (by decide)
    · exact (manageLoop_emitted prm date selected pos2 ri hm).2 hreb
  have hBuyGe : ∀ j rj, (S ++ B ++ M)[j]? = some rj → rj.action = "BUY" →
      S.length ≤ j := by
    intro j rj hj hbuy
    by_contra hlt
    push_neg at hlt
    rw [List.append_assoc, getElem?_append_left_of_lt hlt] at hj
    have hmem := mem_of_getElem?_eq _ _ _ hj
    have hact := (rebalanceSells_shape selected st.positions date rj hmem).1
    rw [hact] at hbuy
    exact absurd hbuy (by decide)
  constructor
  · intro i j ri rj hi hj hsell hreb hbuy
    rw [hlog] at hi hj
    exact lt_of_lt_of_le (hSellLt i ri hi hsell hreb) (hBuyGe j rj hj hbuy)
  · intro p hp hpos
    have hmem := hfeeds p hp
    obtain ⟨q, hq, hq1⟩ := List.mem_map.mp hmem
    have hsome : (selected.find? (fun q2 => q2.1 == p.1)).isSome := by
      rw [List.find?_isSome]
      exact ⟨q, hq, by simp [hq1]⟩
    obtain ⟨q', hq'⟩ := Option.isSome_iff_exists.mp hsome
    have hrecmem : (⟨date, p.1, "SELL", p.2, q'.2.close, (p.2 : ℚ) * q'.2.close,
        TradeReason.rebalance⟩ : TradeRec) ∈ S := by
      rw [hSdef]
      unfold rebalanceSells
      refine List.mem_filterMap.mpr ⟨p, hp, ?_⟩
      rw [hq']
      simp [hpos]
    obtain ⟨i, hi⟩ := List.mem_iff_getElem?.mp hrecmem
    have hilt : i < S.length := (List.getElem?_eq_some.mp hi).1
    refine ⟨i, ⟨date, p.1, "SELL", p.2, q'.2.close, (p.2 : ℚ) * q'.2.close,
      TradeReason.rebalance⟩, ?_, rfl, rfl, rfl, rfl, ?_⟩
    · rw [hlog, List.append_assoc, getElem?_append_left_of_lt hilt]
      exact hi
    · intro j rj hj hbuy
      rw [hlog] at hj
      exact lt_of_lt_of_le hilt (hBuyGe j rj hj hbuy)

/-- Concrete data for the C4/C5 witnesses. -/
def c45data : SymbolData := ⟨10, 1, [⟨0, "X", "x", "C", 3⟩], []⟩

/-- Concrete parameters for the C4/C5 witnesses (disclosure signals off). -/
def c45prm : StratParams := ⟨⟨false, [], [], []⟩, 10, 30⟩

/-- Witness for `claim_C4` at a concrete input (one feed, one held
position, first day so the rebalance fires). -/
theorem claim_C4_witness :
    (∀ (i j : ℕ) (ri rj : TradeRec),
      (nextStep c45prm [("A", c45data)] ⟨[("A", 1)], 100, none⟩ 0).2[i]? = some ri →
      (nextStep c45prm [("A", c45data)] ⟨[("A", 1)], 100, none⟩ 0).2[j]? = some rj →
      ri.action = "SELL" → ri.reason = TradeReason.rebalance →
      rj.action = "BUY" → i < j) ∧
    (∀ p ∈ ([("A", 1)] : List (String × ℤ)), 0 < p.2 →
      ∃ (i : ℕ) (ri : TradeRec),
        (nextStep c45prm [("A", c45data)] ⟨[("A", 1)], 100, none⟩ 0).2[i]? = some ri ∧
        ri.symbol = p.1 ∧ ri.action = "SELL" ∧
        ri.reason = TradeReason.rebalance ∧ ri.size = p.2 ∧
        ∀ (j : ℕ) (rj : TradeRec),
          (nextStep c45prm [("A", c45data)] ⟨[("A", 1)], 100, none⟩ 0).2[j]? = some rj →
          rj.action = "BUY" → i < j) :=
  claim_C4 c45prm [("A", c45data)] ⟨[("A", 1)], 100, none⟩ 0 rfl
    (by intro p hp; simp at hp; simp [hp])

/-- C5: whenever `manage_position` places its ATR-based risk orders, the
prices satisfy `stop_price < close < take_profit`, because the ATR used is
floored at 0.1 and the orders sit at `close - 2*ATR` and `close + 3*ATR`. -/
theorem claim_C5 (prm : StratParams) (sym : String) (d : SymbolData)
    (positions : List (String × ℤ)) (date : ℤ) (sp tp : ℚ)
    (h : (manageStep prm sym d positions date).2.2 = some (sp, tp)) :
    sp < d.close ∧ d.close < tp := by
  simp only [manageStep] at h
  split at h
  · simp at h
  · split at h
    · simp at h
    · split at h
      · simp at h
      · injection h with h2
        have hatr : (10 : ℚ)⁻¹ ≤ max d.atr 10⁻¹ := le_max_right _ _
        have hpos10 : (0 : ℚ) < 10⁻¹ := by norm_num
        have h3 : sp = d.close - 2 * max d.atr 10⁻¹ := by
          have := congrArg Prod.fst h2
          simp at this
          exact this.symm
        have h4 : tp = d.close + 3 * max d.atr 10⁻¹ := by
          have := congrArg Prod.snd h2
          simp at this
          exact this.symm
        constructor
        · rw [h3]; linarith
        · rw [h4]; linarith

/-- Witness for `claim_C5` at a concrete input: close 10, ATR 1, so the
placed orders are (8, 13). -/
theorem claim_C5_witness : ((8:ℚ) < 10) ∧ ((10:ℚ) < 13) :=
  claim_C5 c45prm "A" c45data [("A", 1)] 0 8 13 (by
    simp [manageStep, manageSellDecision, indicatorTier, categoryTier,
      manageTier3, c45prm, c45data]
    norm_num)

/-- One OHLCV bar of `daily_stock_price` (a `get_stock_price_data` row);
`openPx`…`volume` model the open/high/low/close/volume columns. -/
structure PriceBar where
  date : ℤ
  openPx : ℚ
  highPx : ℚ
  lowPx : ℚ
  closePx : ℚ
  volume : ℚ
deriving Repr, DecidableEq

/-- External data-store and scoring oracle for `run_backtest`: the distinct
symbols of `daily_stock_price` (`_get_all_symbols`), the corp-name →
stock-code lookup of `get_universe_symbols` (`none` models both "no row"
and a caught query error), the per-symbol screening score (each `sort_by`
branch computes one float per symbol from the store, degrading to 0.0 on
any error), and the per-symbol price series within the configured date
range. -/
structure RunEnv where
  allSymbols : List String
  corpLookup : String → Option String
  score : String → ℚ
  prices : String → List PriceBar

/-- The `BacktestInput` fields consumed by the modelled phase of
`run_backtest`. -/
structure RunConfig where
  targetSymbols : Option (List String)
  targetCorpNames : Option (List String)
  sortBy : String
  sortAscending : Bool
  filterType : Option String
  filterPercent : Option ℚ
  filterValue : Option ℚ
  maxPortfolioSize : ℕ

/-- Python truthiness of an `Optional[List[str]]`. -/
def optTruthy : Option (List String) → Bool
  | some (_ :: _) => true
  | _ => false

/-- The corp-name resolution loop of `DataLoader.get_universe_symbols`
(portfolio_backtest.py 887–907): a name contributes its looked-up stock
code when the query returns a truthy row (`if row and row[0]`). -/
def resolveCorpNames (env : RunEnv) (names : List String) : List String :=
  names.filterMap fun n =>
    match env.corpLookup n with
    | some code => if code ≠ "" then some code else none
    | none => none

/-- Embedding of `DataLoader.get_universe_symbols`
(portfolio_backtest.py 874–922), with `_get_all_symbols` read from the
oracle. -/
def getUniverseSymbols (env : RunEnv) (cfg : RunConfig) : List String :=
  if optTruthy cfg.targetSymbols then cfg.targetSymbols.getD []
  else if optTruthy cfg.targetCorpNames then
    if resolveCorpNames env (cfg.targetCorpNames.getD []) = [] then
      env.allSymbols
    else resolveCorpNames env (cfg.targetCorpNames.getD [])
  else env.allSymbols

/-- The `sort_by` values that run the filter/sort screening pipeline in
`run_backtest` (lines 1794, 1856, 1895). -/
def screeningCriteria : List String :=
  ["momentum", "market_cap", "event_type", "disclosure",
   "sentiment_score", "fundamental"]

/-- The symbol-selection stage of `run_backtest` (lines 1789–1932): score
the universe through the oracle, run the screening pipeline, truncate to
`max_portfolio_size`; a `sort_by` outside the screening criteria leaves the
universe order unchanged. -/
def selectedSymbolsOf (env : RunEnv) (cfg : RunConfig)
    (univ : List String) : List String :=
  (if screeningCriteria.contains cfg.sortBy then
    screeningPipeline (univ.map fun s => (s, env.score s))
      cfg.filterType cfg.filterPercent cfg.filterValue cfg.sortAscending
  else univ).take cfg.maxPortfolioSize

/-- The result object `BacktestOutput` (portfolio_backtest.py 305–339). -/
structure BacktestOutput where
  cumulative_return : ℚ
  total_return : ℚ
  annualized_return : ℚ
  mdd : ℚ
  sharpe_ratio : ℚ
  win_rate : ℚ
  total_trades : ℕ
  total_profit : ℚ
  total_loss : ℚ
  trades : List TradeRec
  report : String
deriving Repr, DecidableEq

/-- `BacktestOutput()` with all default (zero/empty) fields. -/
def BacktestOutput.zero : BacktestOutput := ⟨0, 0, 0, 0, 0, 0, 0, 0, 0, [], ""⟩

/-- The outcome of the guarded phase of `run_backtest`: one of the two
early zeroed returns (lines 1785–1787 and 2000–2002) or the loaded
per-symbol price data handed to the simulation. -/
inductive RunOutcome where
  | early (out : BacktestOutput)
  | sim (priceData : List (String × List PriceBar))
deriving Repr, DecidableEq

/-- The price-data loading loop of `run_backtest` (lines 1940–1949):
symbols with an empty price series are dropped. -/
def loadedPriceData (env : RunEnv) (cfg : RunConfig) :
    List (String × List PriceBar) :=
  (selectedSymbolsOf env cfg (getUniverseSymbols env cfg)).filterMap fun s =>
    if env.prices s ≠ [] then some (s, env.prices s) else none

/-- Embedding of the guarded phase of `run_backtest`
(portfolio_backtest.py 1771–2002): universe resolution, screening,
truncation, price loading, and the two zeroed-result guard returns. -/
def runBacktestGuards (env : RunEnv) (cfg : RunConfig) : RunOutcome :=
  if getUniverseSymbols env cfg = [] then RunOutcome.early BacktestOutput.zero
  else if loadedPriceData env cfg = [] then RunOutcome.early BacktestOutput.zero
  else RunOutcome.sim (loadedPriceData env cfg)

/-- C6: with an empty resolved universe, or when no selected candidate
symbol has any price data in the date range, `run_backtest` returns the
zeroed `BacktestOutput()` (all metrics 0, empty trade list, empty report)
through one of its guard returns, and does not raise (the guarded phase is
a total function in the model). -/
theorem claim_C6 (env : RunEnv) (cfg : RunConfig)
    (h : getUniverseSymbols env cfg = [] ∨
      ∀ s ∈ selectedSymbolsOf env cfg (getUniverseSymbols env cfg),
        env.prices s = []) :
    runBacktestGuards env cfg = RunOutcome.early BacktestOutput.zero ∧
    BacktestOutput.zero.total_trades = 0 ∧
    BacktestOutput.zero.trades = [] ∧
    BacktestOutput.zero.report = "" ∧
    BacktestOutput.zero.total_return = 0 ∧
    BacktestOutput.zero.win_rate = 0 ∧
    BacktestOutput.zero.total_profit = 0 ∧
    BacktestOutput.zero.total_loss = 0 := by
  refine ⟨?_, rfl, rfl, rfl, rfl, rfl, rfl, rfl⟩
  unfold runBacktestGuards
  rcases h with h | h
  · rw [if_pos h]
  · by_cases hu : getUniverseSymbols env cfg = []
    · rw [if_pos hu]
    · rw [if_neg hu]
      have hload : loadedPriceData env cfg = [] := by
        unfold loadedPriceData
        rw [List.filterMap_eq_nil_iff]
        intro s hs
        rw [if_neg (by simpa using h s hs)]
      rw [if_pos hload]

/-- Witness for `claim_C6` at a concrete input (no symbols at all). -/
theorem claim_C6_witness :
    runBacktestGuards ⟨[], fun _ => none, fun _ => 0, fun _ => []⟩
      ⟨none, none, "disclosure", false, none, none, none, 20⟩ =
      RunOutcome.early BacktestOutput.zero :=
  (claim_C6 ⟨[], fun _ => none, fun _ => 0, fun _ => []⟩
    ⟨none, none, "disclosure", false, none, none, none, 20⟩
    (Or.inl rfl)).1

/-- C10: when `target_corp_names` is given (truthy) and `target_symbols` is
not, `get_universe_symbols` returns only the resolved stock codes when at
least one company name resolves, and silently falls back to the list of all
symbols in the price table when none resolves. -/
theorem claim_C10 (env : RunEnv) (cfg : RunConfig) (names : List String)
    (hts : optTruthy cfg.targetSymbols = false)
    (hcn : cfg.targetCorpNames = some names) (hne : names ≠ []) :
    (resolveCorpNames env names = [] →
      getUniverseSymbols env cfg = env.allSymbols) ∧
    (resolveCorpNames env names ≠ [] →
      getUniverseSymbols env cfg = resolveCorpNames env names) := by
  have htruthy : optTruthy cfg.targetCorpNames = true := by
    rw [hcn]
    cases names with
    | nil => exact absurd rfl hne
    | cons a l => rfl
  unfold getUniverseSymbols
  rw [hcn]
  simp only [hts, Bool.false_eq_true, if_false, Option.getD_some]
  have ht2 : optTruthy (some names) = true := by rw [hcn] at htruthy; exact htruthy
  rw [if_pos ht2]
  constructor
  · intro h
    rw [if_pos h]
  · intro h
    rw [if_neg h]

/-- Witness for `claim_C10` at a concrete input (no name resolves, so the
universe expands to the whole price table). -/
theorem claim_C10_witness :
    getUniverseSymbols ⟨["S1", "S2"], fun _ => none, fun _ => 0, fun _ => []⟩
      ⟨none, some ["N"], "disclosure", false, none, none, none, 20⟩ =
      ["S1", "S2"] :=
  (claim_C10 ⟨["S1", "S2"], fun _ => none, fun _ => 0, fun _ => []⟩
    ⟨none, some ["N"], "disclosure", false, none, none, none, 20⟩
    ["N"] rfl rfl (by simp)).1 rfl

/-- One bucket of `analyze_event_performance`
(portfolio_backtest.py 2189–2195). -/
structure EventStats where
  count : ℕ
  total_profit : ℚ
  total_loss : ℚ
  win_count : ℕ
  loss_count : ℕ
deriving Repr, DecidableEq

/-- The freshly inserted bucket. -/
def initStats : EventStats := ⟨0, 0, 0, 0, 0⟩

/-- `event_stats[event_type]['count'] += 1` with dict auto-insert
(insertion order preserved). -/
def bumpCount (m : List (String × EventStats)) (et : String) :
    List (String × EventStats) :=
  if m.any (fun p => p.1 == et) then
    m.map fun p =>
      if p.1 == et then (p.1, { p.2 with count := p.2.count + 1 }) else p
  else m ++ [(et, { initStats with count := 1 })]

/-- The per-trade event-type resolution of `analyze_event_performance`
(portfolio_backtest.py 2174–2186): the row dated at the trade date when one
exists, else the most recent earlier row, else "general". (With duplicate
dates the pandas scalar lookup would return a Series and crash the dict
update; the model takes the first row at the date.) -/
def eventTypeForTrade (sentiment : List DisclosureRow) (d : ℤ) : String :=
  match sentiment.find? (fun r => r.date == d) with
  | some r => r.event_type
  | none =>
    match (sentiment.filter fun r => decide (r.date ≤ d)).getLast? with
    | some r => r.event_type
    | none => "general"

/-- The per-trade step of `analyze_event_performance`: trades of symbols
with no disclosure data are skipped; each remaining trade only increments
its bucket's 'count' (no profit/loss field is ever touched). -/
def analyzeStep (sentimentData : List (String × List DisclosureRow))
    (stats : List (String × EventStats)) (t : TradeRec) :
    List (String × EventStats) :=
  match sentimentData.find? (fun p => p.1 == t.symbol) with
  | none => stats
  | some p =>
    if p.2.isEmpty then stats
    else bumpCount stats (eventTypeForTrade p.2 t.date)

/-- Embedding of `analyze_event_performance`
(portfolio_backtest.py 2145–2199). -/
def analyzeEventPerformance (trades : List TradeRec)
    (sentimentData : List (String × List DisclosureRow)) :
    List (String × EventStats) :=
  trades.foldl (analyzeStep sentimentData) []

/-- The per-event win rate rendered by `generate_report`
(portfolio_backtest.py 2248). -/
def renderedWinRate (st : EventStats) : ℚ :=
  if 0 < st.count then ((st.win_count : ℚ) / (st.count : ℚ)) * 100 else 0

theorem bumpCount_zeros (m : List (String × EventStats)) (et : String)
    (hm : ∀ b ∈ m, b.2.total_profit = 0 ∧ b.2.total_loss = 0 ∧
      b.2.win_count = 0 ∧ b.2.loss_count = 0) :
    ∀ b ∈ bumpCount m et, b.2.total_profit = 0 ∧ b.2.total_loss = 0 ∧
      b.2.win_count = 0 ∧ b.2.loss_count = 0 := by
  intro b hb
  unfold bumpCount at hb
  split at hb
  · rcases List.mem_map.mp hb with ⟨p, hp, hpe⟩
    by_cases hq : (p.1 == et) = true
    · rw [if_pos hq] at hpe
      have hz := hm p hp
      rw [← hpe]
      exact hz
    · rw [if_neg hq] at hpe
      exact hpe ▸ hm p hp
  · rcases List.mem_append.mp hb with hb1 | hb1
    · exact hm b hb1
    · rcases List.mem_singleton.mp hb1 with rfl
      exact ⟨rfl, rfl, rfl, rfl⟩

theorem analyzeStep_zeros (sdata : List (String × List DisclosureRow))
    (stats : List (String × EventStats)) (t : TradeRec)
    (hm : ∀ b ∈ stats, b.2.total_profit = 0 ∧ b.2.total_loss = 0 ∧
      b.2.win_count = 0 ∧ b.2.loss_count = 0) :
    ∀ b ∈ analyzeStep sdata stats t, b.2.total_profit = 0 ∧
      b.2.total_loss = 0 ∧ b.2.win_count = 0 ∧ b.2.loss_count = 0 := by
  intro b hb
  unfold analyzeStep at hb
  split at hb
  · exact hm b hb
  · split at hb
    · exact hm b hb
    · exact bumpCount_zeros stats _ hm b hb

theorem analyze_fold_zeros (sdata : List (String × List DisclosureRow)) :
    ∀ (trades : List TradeRec) (acc : List (String × EventStats)),
      (∀ b ∈ acc, b.2.total_profit = 0 ∧ b.2.total_loss = 0 ∧
        b.2.win_count = 0 ∧ b.2.loss_count = 0) →
      ∀ b ∈ trades.foldl (analyzeStep sdata) acc,
        b.2.total_profit = 0 ∧ b.2.total_loss = 0 ∧
        b.2.win_count = 0 ∧ b.2.loss_count = 0 := by
  intro trades
  induction trades with
  | nil => intro acc hacc b hb; exact hacc b hb
  | cons t rest ih =>
    intro acc hacc b hb
    exact ih (analyzeStep sdata acc t) (analyzeStep_zeros sdata acc t hacc) b hb

/-- C9: every bucket returned by `analyze_event_performance` has
`total_profit = total_loss = 0` and `win_count = loss_count = 0` — only
'count' is ever incremented — so the per-event-type win rate rendered by
`generate_report` is always 0. -/
theorem claim_C9 (trades : List TradeRec)
    (sdata : List (String × List DisclosureRow)) :
    ∀ b ∈ analyzeEventPerformance trades sdata,
      b.2.total_profit = 0 ∧ b.2.total_loss = 0 ∧
      b.2.win_count = 0 ∧ b.2.loss_count = 0 ∧ renderedWinRate b.2 = 0 := by
  intro b hb
  obtain ⟨h1, h2, h3, h4⟩ :=
    analyze_fold_zeros sdata trades [] (by intro b2 hb2; cases hb2) b hb
  refine ⟨h1, h2, h3, h4, ?_⟩
  unfold renderedWinRate
  rw [h3]
  simp

/-- Witness for `claim_C9` at a concrete input: one trade, one disclosure
row, one bucket. -/
theorem claim_C9_witness :
    (("x", ⟨1, 0, 0, 0, 0⟩) : String × EventStats).2.total_profit = 0 ∧
    (("x", ⟨1, 0, 0, 0, 0⟩) : String × EventStats).2.total_loss = 0 ∧
    (("x", ⟨1, 0, 0, 0, 0⟩) : String × EventStats).2.win_count = 0 ∧
    (("x", ⟨1, 0, 0, 0, 0⟩) : String × EventStats).2.loss_count = 0 ∧
    renderedWinRate (("x", ⟨1, 0, 0, 0, 0⟩) : String × EventStats).2 = 0 :=
  claim_C9 [⟨0, "A", "BUY", 1, 1, 1, TradeReason.rebalance⟩]
    [("A", [⟨0, "X", "x", "C", 1⟩])] ("x", ⟨1, 0, 0, 0, 0⟩)
    (by
      show _ ∈ List.foldl _ [] _
      simp [analyzeStep, bumpCount, eventTypeForTrade, initStats])

end Backtest
